import Mathlib

/-!
Shallow embedding of the spice-trade dashboard's data pipeline and query
engine (source: `src/source_code.py`), together with theorems checking the
natural-language specification against it.

Modelling conventions:
* pandas float columns are modelled by exact rationals (`ℚ`); where IEEE
  special values matter (the derived ratio column, ranking, shares) we use
  `PFloat`, which adds `+inf`, `-inf` and `nan` to `ℚ`.  Float division by
  zero in numpy yields `±inf` for a nonzero numerator and `nan` for `0/0`;
  `pdiv` reproduces exactly that.
* the fallible whole-column conversion `astype("Int64")` is modelled as an
  `Except`: pandas raises `ValueError` on a string it cannot coerce.
* `groupby` drops rows whose group key is NA (pandas default `dropna=True`)
  and emits one row per distinct key; the order in which groups are emitted
  is irrelevant to every property proved here, so we keep first-occurrence
  key order instead of pandas' sorted key order.
* `Series.rank(method="min", ascending=False)` with the default
  `na_option="keep"` is modelled by sorting the year's non-NaN values in
  descending order and locating the value's first position; NaN entries
  receive a null rank.
* sorting (`sort_values(ascending=False)`) is modelled with insertion sort;
  the source's quicksort is also unstable, and no claim constrains the
  relative order of tied rows.
-/

namespace SpiceDash

/-- Extended float value: a rational, one of the two infinities, or NaN.
This is the carrier for pandas float cells where IEEE special values can
arise (the Self-Sufficiency Ratio column and the market shares). -/
inductive PFloat where
  | num (q : ℚ)
  | pinf
  | ninf
  | nan
deriving DecidableEq

/-- NaN test, the Lean counterpart of `pandas.isna` on a float cell
(note `isna` is `False` on the infinities). -/
def PFloat.isNan : PFloat → Bool
  | .nan => true
  | _ => false

/-- IEEE float division on exact operands, as numpy performs it inside
`data["Production"] / data["Consumption"]`: the quotient when the divisor
is nonzero, `±inf` for a nonzero numerator over zero, `nan` for `0/0`. -/
def pdiv (p c : ℚ) : PFloat :=
  if c = 0 then
    if 0 < p then .pinf
    else if p < 0 then .ninf
    else .nan
  else .num (p / c)

/-- Multiplication by the constant 100, used for percentage market shares
(`value / market_total * 100`); 100 is positive so infinities keep their
sign and NaN propagates. -/
def pmul100 : PFloat → PFloat
  | .num q => .num (q * 100)
  | .pinf => .pinf
  | .ninf => .ninf
  | .nan => .nan

/-- Strict comparison of float cells, with the IEEE rule that every
comparison against NaN is false. -/
def pltB : PFloat → PFloat → Bool
  | .nan, _ => false
  | _, .nan => false
  | .num a, .num b => decide (a < b)
  | .ninf, .num _ => true
  | .ninf, .pinf => true
  | .num _, .pinf => true
  | _, _ => false

/-- Order used by a descending sort of a float column: `descLe x y` says
`x` may come before `y`.  Larger values come first and NaN is placed last,
matching `sort_values(ascending=False)` (default `na_position="last"`). -/
def descLe : PFloat → PFloat → Bool
  | _, .nan => true
  | .nan, _ => false
  | .pinf, _ => true
  | _, .pinf => false
  | .num a, .num b => decide (b ≤ a)
  | .num _, .ninf => true
  | .ninf, .ninf => true
  | .ninf, .num _ => false

/-- Propositional form of `descLe`, the relation fed to the sort. -/
def PFloat.dle (x y : PFloat) : Prop := descLe x y = true

instance : DecidableRel PFloat.dle := fun x y => by
  unfold PFloat.dle; infer_instance

instance : IsTrans PFloat PFloat.dle := by
  constructor
  intro x y z hxy hyz
  cases x <;> cases y <;> cases z <;>
    simp [PFloat.dle, descLe] at * <;> exact le_trans hyz hxy

instance : IsTotal PFloat PFloat.dle := by
  constructor
  intro x y
  cases x <;> cases y <;> simp [PFloat.dle, descLe] <;> exact le_total _ _

/-! ### The pipeline (module-level script, source lines 16-92) -/

/-- One raw trade record as loaded by `read_csv("data/data_raw.csv")`.
The `Area Code (M49)` cell is kept in its raw textual form (the column may
carry stray quoting, so the script passes it through `astype(str)` before
cleaning); the metric columns are floats, `Export ` still has its trailing
space at this stage but we name the field canonically. -/
structure RawRow where
  area : String
  m49raw : String
  year : ℤ
  imports : ℚ
  exports : ℚ
  production : ℚ
  consumption : ℚ
  unit : String
deriving DecidableEq

/-- One raw reference-table record from `country_code_conversion.csv`,
textual `Numeric code` and `Alpha-3 code` cells. -/
structure RefRawRow where
  codeRaw : String
  alpha3Raw : String
deriving DecidableEq

/-- Per-cell string cleaning `.astype(str).str.replace('"', "").str.strip()`:
drop every double-quote character, then trim surrounding whitespace. -/
def cleanCell (s : String) : String :=
  (String.mk (s.toList.filter (fun ch => ch ≠ '"'))).trim

/-- Whole-column `astype("Int64")` conversion of cleaned string cells.
pandas raises `ValueError` on the first value it cannot coerce to an
integer; that abrupt failure is modelled as `Except.error`. -/
def toInt64Column : List String → Except String (List ℤ)
  | [] => .ok []
  | c :: cs =>
    match c.toInt? with
    | none => .error ("invalid literal for int with base 10: " ++ c)
    | some n =>
      match toInt64Column cs with
      | .error e => .error e
      | .ok ns => .ok (n :: ns)

/-- Trade record after the numeric-code cleaning succeeded. -/
structure CleanRow where
  area : String
  m49 : ℤ
  year : ℤ
  imports : ℚ
  exports : ℚ
  production : ℚ
  consumption : ℚ
  unit : String
deriving DecidableEq

/-- Cleaned reference-table record: integer `Numeric code`, cleaned
`Alpha-3 code` string. -/
structure RefRow where
  numericCode : ℤ
  alpha3 : String
deriving DecidableEq

/-- Cleaning of the trade table's `Area Code (M49)` column (source lines
22-28): clean each cell, then coerce the whole column with
`astype("Int64")`; one bad cell fails the whole step. -/
def cleanTrade (rows : List RawRow) : Except String (List CleanRow) :=
  match toInt64Column (rows.map (fun r => cleanCell r.m49raw)) with
  | .error e => .error e
  | .ok codes =>
    .ok ((rows.zip codes).map (fun rc =>
      { area := rc.1.area, m49 := rc.2, year := rc.1.year,
        imports := rc.1.imports, exports := rc.1.exports,
        production := rc.1.production, consumption := rc.1.consumption,
        unit := rc.1.unit }))

/-- Cleaning of the reference table (source lines 29-38): coerce
`Numeric code` to integer, strip quoting from `Alpha-3 code`. -/
def cleanRef (rows : List RefRawRow) : Except String (List RefRow) :=
  match toInt64Column (rows.map (fun r => cleanCell r.codeRaw)) with
  | .error e => .error e
  | .ok codes =>
    .ok ((rows.zip codes).map (fun rc =>
      { numericCode := rc.2, alpha3 := cleanCell rc.1.alpha3Raw }))

/-- Sudan code fixup (source line 42): rows whose area is "Sudan" get the
hard-coded M49 code 736. -/
def fixSudan (r : CleanRow) : CleanRow :=
  if r.area = "Sudan" then { r with m49 := 736 } else r

/-- Area-name shortening (source lines 45-47). -/
def shortenName (r : CleanRow) : CleanRow :=
  if r.area = "United Kingdom of Great Britain and Northern Ireland" then
    { r with area := "UK and Northern Ireland" }
  else r

/-- Trade record after the left merge with the reference table; `iso3` is
the `Alpha-3 code` brought in by the join, `none` when the join missed
(pandas fills unmatched right-side columns with NaN). -/
structure MergedRow where
  area : String
  m49 : ℤ
  year : ℤ
  imports : ℚ
  exports : ℚ
  production : ℚ
  consumption : ℚ
  unit : String
  iso3 : Option String
deriving DecidableEq

/-- Reference lookup on the join key.  The reference table is assumed to
have unique numeric codes (the script's precondition); with duplicates
pandas would multiply rows, here the first match wins. -/
def lookupRef (ref : List RefRow) (code : ℤ) : Option String :=
  (ref.find? (fun e => e.numericCode = code)).map (fun e => e.alpha3)

/-- The left outer join `data.merge(ref_table, how="left",
left_on="Area Code (M49)", right_on="Numeric code")` (source lines 51-53):
every trade row is kept, and receives the matching `Alpha-3 code` or NA. -/
def leftJoin (rows : List CleanRow) (ref : List RefRow) : List MergedRow :=
  rows.map (fun r =>
    { area := r.area, m49 := r.m49, year := r.year,
      imports := r.imports, exports := r.exports,
      production := r.production, consumption := r.consumption,
      unit := r.unit, iso3 := lookupRef ref r.m49 })

/-- The five continent names this dashboard recognises (they appear
verbatim in the source's scope picker and tab-2 description). -/
def fiveContinents : List String := ["Africa", "America", "Asia", "Europe", "Oceania"]

/-- Record after continent classification and the unresolved filter; the
relevant columns have been selected (source lines 66-81), `Unit` is about
to be discarded by the aggregation and is dropped here. -/
structure JRow where
  area : String
  continent : String
  iso3 : Option String
  year : ℤ
  imports : ℚ
  exports : ℚ
  production : ℚ
  consumption : ℚ
deriving DecidableEq

/-- Continent classification and the NA filter (source lines 56-64).  The
external `country_converter` collaborator is an opaque function
`classify : code → continent-name-or-"not found"`; the script replaces
"not found" with NA and keeps only rows whose continent is not NA.
Classification reads the row's own `Area Code (M49)` column, not the join
result. -/
def classifyFilter (classify : ℤ → String) (rows : List MergedRow) : List JRow :=
  (rows.filter (fun r => classify r.m49 ≠ "not found")).map (fun r =>
    { area := r.area, continent := classify r.m49, iso3 := r.iso3,
      year := r.year, imports := r.imports, exports := r.exports,
      production := r.production, consumption := r.consumption })

/-- Grouping key of the aggregation: `["Area", "Continent", "ISO-3", "Year"]`. -/
structure GroupKey where
  area : String
  continent : String
  iso3 : String
  year : ℤ
deriving DecidableEq

/-- One row of the aggregated table: unique key fields plus the four
summed metrics. -/
structure AggRow where
  area : String
  continent : String
  iso3 : String
  year : ℤ
  imports : ℚ
  exports : ℚ
  production : ℚ
  consumption : ℚ
deriving DecidableEq

/-- Key of an aggregated row. -/
def rowKey (r : AggRow) : GroupKey :=
  { area := r.area, continent := r.continent, iso3 := r.iso3, year := r.year }

/-- Rows admitted into the grouping: pandas `groupby` (default
`dropna=True`) silently drops any row whose group key contains NA, which
here means rows whose `ISO-3` is NA, i.e. rows the reference join missed. -/
def keyRows (rows : List JRow) : List AggRow :=
  rows.filterMap (fun r =>
    r.iso3.map (fun c =>
      { area := r.area, continent := r.continent, iso3 := c, year := r.year,
        imports := r.imports, exports := r.exports,
        production := r.production, consumption := r.consumption }))

/-- The aggregated row of one group: the key's fields plus the sums of the
four metrics over the rows of that key
(`.agg({"Import": "sum", "Export": "sum", "Production": "sum",
"Consumption": "sum"})`). -/
def sumGroup (k : GroupKey) (rows : List AggRow) : AggRow :=
  let g := rows.filter (fun r => rowKey r = k)
  { area := k.area, continent := k.continent, iso3 := k.iso3, year := k.year,
    imports := (g.map (fun r => r.imports)).sum,
    exports := (g.map (fun r => r.exports)).sum,
    production := (g.map (fun r => r.production)).sum,
    consumption := (g.map (fun r => r.consumption)).sum }

/-- Group-by-key-and-sum over already keyed rows: one output row per
distinct key.  (pandas emits groups in sorted key order; the claims are
insensitive to the output order, and we use first-occurrence order.) -/
def groupAgg (rows : List AggRow) : List AggRow :=
  ((rows.map rowKey).dedup).map (fun k => sumGroup k rows)

/-- The full aggregation step (source lines 84-88): drop NA-keyed rows,
then group and sum. -/
def aggregate (rows : List JRow) : List AggRow :=
  groupAgg (keyRows rows)

/-- View of an aggregated row as a classified row again (its identifier is
present), used to feed the Aggregator its own output. -/
def asJRow (r : AggRow) : JRow :=
  { area := r.area, continent := r.continent, iso3 := some r.iso3, year := r.year,
    imports := r.imports, exports := r.exports,
    production := r.production, consumption := r.consumption }

/-- One row of the canonical table, with the two derived columns. -/
structure CRow where
  area : String
  continent : String
  iso3 : String
  year : ℤ
  imports : ℚ
  exports : ℚ
  production : ℚ
  consumption : ℚ
  netTrade : ℚ
  ssr : PFloat
deriving DecidableEq

/-- The metric deriver (source lines 91-92): `Net Trade = Export - Import`
and `Self-Sufficiency Ratio = Production / Consumption` with IEEE float
division. -/
def derive (r : AggRow) : CRow :=
  { area := r.area, continent := r.continent, iso3 := r.iso3, year := r.year,
    imports := r.imports, exports := r.exports,
    production := r.production, consumption := r.consumption,
    netTrade := r.exports - r.imports,
    ssr := pdiv r.production r.consumption }

/-- Derived-metric computation over the whole aggregated table. -/
def deriveAll (rows : List AggRow) : List CRow := rows.map derive

/-- The whole pipeline build (source lines 16-92): clean both tables, fix
Sudan, shorten the UK name, left-join, classify and filter continents,
aggregate, derive.  A cleaning failure aborts the build. -/
def buildTable (classify : ℤ → String) (trade : List RawRow)
    (refRaw : List RefRawRow) : Except String (List CRow) :=
  match cleanTrade trade with
  | .error e => .error e
  | .ok cleanRows =>
    match cleanRef refRaw with
    | .error e => .error e
    | .ok ref =>
      let fixedRows := (cleanRows.map fixSudan).map shortenName
      .ok (deriveAll (aggregate (classifyFilter classify (leftJoin fixedRows ref))))

/-! ### The query engine -/

/-- The six metrics offered by the dashboard's metric pickers. -/
inductive Metric where
  | imports
  | exports
  | production
  | consumption
  | netTrade
  | ssr
deriving DecidableEq

/-- The six metrics in the order of the `metrics` list of
`country_level_plots` (source lines 912-919). -/
def allMetrics : List Metric :=
  [.imports, .exports, .production, .consumption, .netTrade, .ssr]

/-- Value of a metric column in a canonical row, as a float cell.  The
four base metrics and Net Trade are always plain numbers; the
Self-Sufficiency Ratio can be an IEEE special value. -/
def mval : Metric → CRow → PFloat
  | .imports, r => .num r.imports
  | .exports, r => .num r.exports
  | .production, r => .num r.production
  | .consumption, r => .num r.consumption
  | .netTrade, r => .num r.netTrade
  | .ssr, r => r.ssr

/-- The non-NaN metric values of one year of the table.  pandas `rank`
(default `na_option="keep"`) assigns ranks among the non-NaN entries of
the group only. -/
def yearVals (t : List CRow) (m : Metric) (y : ℤ) : List PFloat :=
  ((t.filter (fun s => s.year = y)).map (mval m)).filter
    (fun v => v.isNan = false)

/-- A year's non-NaN metric values sorted descending, the order in which
`rank(method="min", ascending=False)` walks the group. -/
def rankedVals (t : List CRow) (m : Metric) (y : ℤ) : List PFloat :=
  (yearVals t m y).insertionSort PFloat.dle

/-- World rank of a row within its year, i.e. one cell of
`groupby("Year")[metric].rank(method="min", ascending=False).astype("Int64")`
(source lines 920-925 and 966-971): NaN gets a null rank; a value ranks at
one past the block of strictly greater values in the descending order. -/
def rankIn (t : List CRow) (m : Metric) (r : CRow) : Option ℕ :=
  if (mval m r).isNan = true then none
  else
    some (((rankedVals t m r.year).takeWhile
      (fun v => pltB (mval m r) v)).length + 1)

/-- Number of rows of the table in the same year as `r` whose metric value
is strictly greater than `r`'s (NaN compares false, so NaN-valued rows
never count). -/
def greaterCount (t : List CRow) (m : Metric) (r : CRow) : ℕ :=
  (t.filter (fun s => s.year = r.year ∧ pltB (mval m r) (mval m s) = true)).length

/-- The world-rank table exported by the Tab-3 download button (source
lines 911-926): one entry per row of the canonical table carrying area,
year and the six per-metric ranks. -/
def world_rank_data (t : List CRow) : List (String × ℤ × List (Option ℕ)) :=
  t.map (fun r => (r.area, r.year, allMetrics.map (fun m => rankIn t m r)))

/-- The four metrics offered by the Tab-4 (top-5) metric picker; these
columns are plain rationals in every canonical row. -/
inductive BaseMetric where
  | imports
  | exports
  | production
  | consumption
deriving DecidableEq

/-- Value of a base metric in a canonical row. -/
def bval : BaseMetric → CRow → ℚ
  | .imports, r => r.imports
  | .exports, r => r.exports
  | .production, r => r.production
  | .consumption, r => r.consumption

/-- Descending comparison of two rows on a base metric, the sort relation
of `sort_values(metric, ascending=False)`. -/
def rowGe (m : BaseMetric) (a b : CRow) : Prop := bval m b ≤ bval m a

instance (m : BaseMetric) : DecidableRel (rowGe m) := fun a b => by
  unfold rowGe; infer_instance

instance (m : BaseMetric) : IsTrans CRow (rowGe m) :=
  ⟨fun _ _ _ h1 h2 => le_trans h2 h1⟩

instance (m : BaseMetric) : IsTotal CRow (rowGe m) :=
  ⟨fun a b => (le_total (bval m b) (bval m a)).imp id id⟩

/-- Rows of the requested scope for a year: the whole table's year slice
for "the Whole World", otherwise the year slice restricted to the chosen
continent (source lines 1025-1039). -/
def scopeRows (t : List CRow) (y : ℤ) (scope : String) : List CRow :=
  if scope = "the Whole World" then t.filter (fun r => r.year = y)
  else t.filter (fun r => r.year = y ∧ r.continent = scope)

/-- The scope's rows sorted descending on the metric. -/
def sortedScope (t : List CRow) (m : BaseMetric) (y : ℤ) (scope : String) :
    List CRow :=
  (scopeRows t y scope).insertionSort (rowGe m)

/-- The Tab-4 `plot_df`: `sort_values(metric, ascending=False).iloc[:5, :]`. -/
def top5 (t : List CRow) (m : BaseMetric) (y : ℤ) (scope : String) :
    List CRow :=
  (sortedScope t m y scope).take 5

/-- The Tab-4 `market_total`: the metric summed over every row of the
scope, not just the selected five. -/
def market_total (t : List CRow) (m : BaseMetric) (y : ℤ) (scope : String) : ℚ :=
  ((scopeRows t y scope).map (bval m)).sum

/-- Market share of one value against the scope total,
`value / market_total * 100` in float arithmetic. -/
def marketShare (v total : ℚ) : PFloat := pmul100 (pdiv v total)

/-- The Tab-4 summary table (source lines 1042-1059): the five country
names with their market shares.  The source reads `plot_df` at positions
`iloc[0]` .. `iloc[4]` unconditionally, so when the scope holds fewer than
five rows the callback raises `IndexError`; that failure is the `error`
branch. -/
def top5_query (t : List CRow) (m : BaseMetric) (y : ℤ) (scope : String) :
    Except String (List (String × PFloat)) :=
  match top5 t m y scope with
  | a :: b :: c :: d :: e :: _ =>
    .ok ([a, b, c, d, e].map (fun r =>
      (r.area, marketShare (bval m r) (market_total t m y scope))))
  | _ => .error "single positional indexer is out-of-bounds"

/-! ### Concrete fixtures used by witnesses and counterexamples -/

/-- Decidable equality for `Except`, needed to evaluate pipeline results
on concrete inputs. -/
instance {ε α : Type} [DecidableEq ε] [DecidableEq α] : DecidableEq (Except ε α) := fun a b =>
  match a, b with
  | .ok x, .ok y =>
    if h : x = y then .isTrue (by rw [h]) else .isFalse (by intro hc; cases hc; exact h rfl)
  | .error x, .error y =>
    if h : x = y then .isTrue (by rw [h]) else .isFalse (by intro hc; cases hc; exact h rfl)
  | .ok _, .error _ => .isFalse (by intro hc; cases hc)
  | .error _, .ok _ => .isFalse (by intro hc; cases hc)

/-- Aggregated row with positive production and zero consumption. -/
def agP1C0 : AggRow :=
  { area := "A", continent := "Asia", iso3 := "AAA", year := 2020,
    imports := 0, exports := 0, production := 1, consumption := 0 }

/-- Aggregated row with ordinary nonzero consumption. -/
def agP2C4 : AggRow :=
  { area := "B", continent := "Asia", iso3 := "BBB", year := 2020,
    imports := 3, exports := 7, production := 2, consumption := 4 }

/-- Canonical row constructor for query-engine fixtures: production `p`,
consumption 1, everything else fixed. -/
def mkC (a c : String) (y : ℤ) (p : ℚ) : CRow :=
  { area := a, continent := c, iso3 := "AAA", year := y,
    imports := 0, exports := 0, production := p, consumption := 1,
    netTrade := 0, ssr := PFloat.num 1 }

/-- Aggregated row whose production and consumption are both zero, so its
derived ratio is `0/0`. -/
def agNan : AggRow :=
  { area := "N", continent := "Asia", iso3 := "NNN", year := 2020,
    imports := 0, exports := 0, production := 0, consumption := 0 }

/-- Aggregated row with ordinary values in the same year as `agNan`. -/
def agOrd : AggRow :=
  { area := "O", continent := "Asia", iso3 := "OOO", year := 2020,
    imports := 0, exports := 0, production := 2, consumption := 1 }

/-- Canonical table, built by the deriver, holding one `0/0` row and one
ordinary row in the same year. -/
def nanTable : List CRow := deriveAll [agNan, agOrd]

/-- Four-row single-year table with one tie, for the ranking witness. -/
def rankTable : List CRow :=
  [mkC "A" "Asia" 2020 50, mkC "B" "Asia" 2020 40,
   mkC "B2" "Asia" 2020 40, mkC "D" "Asia" 2020 10]

/-- Canonical table realising the spec's top-5 scenario: Asian rows of
year 2020 with productions 50, 40, 30, 20, 10 and four smaller ones
summing to 30 (scope total 180), plus rows outside the scope. -/
def topTable : List CRow :=
  [mkC "A" "Asia" 2020 50, mkC "B" "Asia" 2020 40, mkC "C" "Asia" 2020 30,
   mkC "D" "Asia" 2020 20, mkC "E" "Asia" 2020 10, mkC "F" "Asia" 2020 9,
   mkC "G" "Asia" 2020 8, mkC "H" "Asia" 2020 7, mkC "I" "Asia" 2020 6,
   mkC "Z" "Europe" 2020 999, mkC "A" "Asia" 2019 1]

/-- Three-row table for the insufficient-scope witness. -/
def smallTable : List CRow :=
  [mkC "A" "Asia" 2021 3, mkC "B" "Asia" 2021 2, mkC "C" "Europe" 2021 1]

/-- Joined rows realising the spec's aggregation scenario: two raw rows
for area "Testland" and year 2000 with imports 10 and 5. -/
def jT1 : JRow :=
  { area := "Testland", continent := "Asia", iso3 := some "TST", year := 2000,
    imports := 10, exports := 1, production := 2, consumption := 3 }

/-- Second Testland row, same key, imports 5. -/
def jT2 : JRow := { jT1 with imports := 5 }

/-- The single aggregated row expected from `[jT1, jT2]`. -/
def aggT : AggRow :=
  { area := "Testland", continent := "Asia", iso3 := "TST", year := 2000,
    imports := 15, exports := 2, production := 4, consumption := 6 }

/-- A classifier that resolves code 4 to Asia and nothing else. -/
def clOnly4 : ℤ → String := fun c => if c = 4 then "Asia" else "not found"

/-- A classifier that resolves every code to Asia (possible: the external
collaborator is seeded independently of the reference table). -/
def clAll : ℤ → String := fun _ => "Asia"

/-- Raw trade row with a quoted, padded M49 cell. -/
def rawT : RawRow :=
  { area := "Testland", m49raw := "\"004\" ", year := 2000,
    imports := 10, exports := 1, production := 2, consumption := 3, unit := "t" }

/-- Raw reference row matching `rawT`'s code. -/
def refRawT : RefRawRow := { codeRaw := "004", alpha3Raw := "\"TST\"" }

/-- Cleaned trade row whose M49 code 900 appears in no reference table. -/
def cMiss : CleanRow :=
  { area := "Atlantis", m49 := 900, year := 2001,
    imports := 1, exports := 2, production := 3, consumption := 4, unit := "t" }

/-- Raw trade row whose M49 cell cannot be coerced to an integer. -/
def rawBad : RawRow :=
  { area := "X", m49raw := "12a", year := 2000,
    imports := 0, exports := 0, production := 0, consumption := 0, unit := "t" }

/-- The canonical row produced by the pipeline from `rawT`/`refRawT` under
`clOnly4`. -/
def cRowW : CRow :=
  { area := "Testland", continent := "Asia", iso3 := "TST", year := 2000,
    imports := 10, exports := 1, production := 2, consumption := 3,
    netTrade := -9, ssr := pdiv 2 3 }

/-- Cleaned reference row with numeric code 4. -/
def refW : RefRow := { numericCode := 4, alpha3 := "TST" }

/-- The merged row obtained by joining `cMiss` against `[refW]` (its code
900 matches nothing, so its identifier is NA). -/
def mJ : MergedRow :=
  { area := "Atlantis", m49 := 900, year := 2001,
    imports := 1, exports := 2, production := 3, consumption := 4,
    unit := "t", iso3 := none }

/-- Classified row with an undefined identifier. -/
def jNone : JRow :=
  { area := "Atlantis", continent := "Asia", iso3 := none, year := 2001,
    imports := 1, exports := 2, production := 3, consumption := 4 }

/-! ### Helper lemmas -/

lemma filter_eq_singleton_of_nodup {α : Type} [DecidableEq α] :
    ∀ {l : List α}, l.Nodup → ∀ {a : α}, a ∈ l → l.filter (fun x => x = a) = [a] := by
  intro l hl
  induction l with
  | nil => intro a ha; cases ha
  | cons b l ih =>
    intro a ha
    rcases List.mem_cons.mp ha with rfl | ha'
    · rw [List.filter_cons_of_pos (by simp)]
      have hnil : l.filter (fun x => x = a) = [] := by
        refine List.filter_eq_nil_iff.mpr (fun x hx => ?_)
        show ¬ (decide (x = a) = true)
        simp only [decide_eq_true_eq]
        exact fun hxa => (List.nodup_cons.mp hl).1 (hxa ▸ hx)
      rw [hnil]
    · have hba : b ≠ a := fun hba => (List.nodup_cons.mp hl).1 (hba ▸ ha')
      rw [List.filter_cons_of_neg (by simp [hba])]
      exact ih (List.nodup_cons.mp hl).2 ha'

lemma length_takeWhile_eq_countP {α : Type} {p : α → Bool} {R : α → α → Prop} :
    ∀ l : List α, l.Pairwise R → (∀ x y, R x y → p y = true → p x = true) →
      (l.takeWhile p).length = l.countP p := by
  intro l hl hcl
  induction l with
  | nil => rfl
  | cons a l ih =>
    rcases List.pairwise_cons.mp hl with ⟨ha, hl'⟩
    by_cases hp : p a = true
    · rw [List.takeWhile_cons, if_pos hp, List.countP_cons, if_pos hp]
      rw [List.length_cons, ih hl']
    · rw [List.takeWhile_cons, if_neg hp, List.countP_cons, if_neg hp]
      have h0 : l.countP p = 0 :=
        List.countP_eq_zero.mpr (fun y hy hpy => hp (hcl a y (ha y hy) hpy))
      simp [h0]

lemma pltB_ne_nan {v x : PFloat} (h : pltB v x = true) : x.isNan = false := by
  cases v <;> cases x <;> simp_all [pltB, PFloat.isNan]

lemma pltB_of_dle {v x y : PFloat} (hxy : PFloat.dle x y) (hvy : pltB v y = true) :
    pltB v x = true := by
  cases v <;> cases x <;> cases y <;>
    simp_all [PFloat.dle, descLe, pltB] <;> linarith

/-- Key of the summed row of a group is the group's key. -/
lemma rowKey_sumGroup (k : GroupKey) (l : List AggRow) : rowKey (sumGroup k l) = k := rfl

/-- The keys of the aggregated table are exactly the distinct input keys. -/
lemma map_rowKey_groupAgg (l : List AggRow) :
    (groupAgg l).map rowKey = (l.map rowKey).dedup := by
  unfold groupAgg
  rw [List.map_map]
  have : rowKey ∘ (fun k => sumGroup k l) = id := funext (fun k => rowKey_sumGroup k l)
  rw [this, List.map_id]

/-- The aggregated table has pairwise distinct keys. -/
lemma nodup_keys_groupAgg (l : List AggRow) : ((groupAgg l).map rowKey).Nodup := by
  rw [map_rowKey_groupAgg]; exact List.nodup_dedup _

/-- Summing a group consisting of exactly one row returns that row. -/
lemma sumGroup_singleton {k : GroupKey} {x : AggRow} (hx : rowKey x = k) {l : List AggRow}
    (hl : l.filter (fun r => rowKey r = k) = [x]) : sumGroup k l = x := by
  unfold sumGroup
  rw [hl]
  cases x with
  | mk area continent iso3 year imports exports production consumption =>
    cases hx
    simp [rowKey]

/-- In an aggregated table, the rows of key `k` form the singleton
`sumGroup k l` whenever `k` is an input key. -/
lemma filter_key_groupAgg (l : List AggRow) {k : GroupKey} (hk : k ∈ (l.map rowKey).dedup) :
    (groupAgg l).filter (fun r => rowKey r = k) = [sumGroup k l] := by
  unfold groupAgg
  rw [List.filter_map]
  have hcomp :
      ((fun r => decide (rowKey r = k)) ∘ (fun k2 => sumGroup k2 l)) =
        fun k2 => decide (k2 = k) := by
    funext k2
    simp [Function.comp, rowKey_sumGroup]
  rw [hcomp, filter_eq_singleton_of_nodup (List.nodup_dedup _) hk]
  rfl

/-- Group-and-sum is idempotent on keyed rows. -/
lemma groupAgg_idem (l : List AggRow) : groupAgg (groupAgg l) = groupAgg l := by
  conv_lhs => rw [groupAgg, map_rowKey_groupAgg, List.dedup_idem]
  rw [groupAgg]
  refine List.map_congr_left (fun k hk => ?_)
  exact sumGroup_singleton (rowKey_sumGroup k l) (filter_key_groupAgg l hk)

/-- Re-keying the aggregated table (all identifiers present) recovers it. -/
lemma keyRows_asJRow (l : List AggRow) : keyRows (l.map asJRow) = l := by
  unfold keyRows
  rw [List.filterMap_map]
  exact List.filterMap_some l

/-- Counting strictly greater rows of the year equals counting strictly
greater values among the year's non-NaN values. -/
lemma greaterCount_eq_countP (t : List CRow) (m : Metric) (r : CRow) :
    greaterCount t m r =
      (yearVals t m r.year).countP (fun v => pltB (mval m r) v) := by
  unfold greaterCount yearVals
  rw [List.countP_filter, List.countP_map, List.countP_filter,
    ← List.countP_eq_length_filter]
  refine List.countP_congr (fun s _ => ?_)
  by_cases hy : s.year = r.year <;> by_cases hg : pltB (mval m r) (mval m s) = true
  · have hnn := pltB_ne_nan hg
    simp_all [Function.comp]
  · simp_all [Function.comp]
  · simp_all [Function.comp]
  · simp_all [Function.comp]

/-- The `method="min"` rank of a non-NaN value is one plus the number of
strictly greater rows in its year. -/
lemma rankIn_eq_count (t : List CRow) (m : Metric) (r : CRow)
    (h : (mval m r).isNan = false) :
    rankIn t m r = some (greaterCount t m r + 1) := by
  unfold rankIn
  rw [if_neg (by simp [h])]
  congr 2
  have hsort : (rankedVals t m r.year).Pairwise PFloat.dle :=
    List.sorted_insertionSort PFloat.dle (yearVals t m r.year)
  rw [length_takeWhile_eq_countP _ hsort (fun _ _ hxy hpy => pltB_of_dle hxy hpy)]
  unfold rankedVals
  rw [List.Perm.countP_eq _ (List.perm_insertionSort PFloat.dle (yearVals t m r.year))]
  exact (greaterCount_eq_countP t m r).symm

/-- The IEEE quotient is NaN exactly for `0/0`. -/
lemma pdiv_isNan (p c : ℚ) : (pdiv p c).isNan = true ↔ (c = 0 ∧ p = 0) := by
  unfold pdiv
  split_ifs with hc hp hp2
  · simp only [PFloat.isNan, Bool.false_eq_true, false_iff, not_and, hc]
    intro _ h0
    linarith
  · simp only [PFloat.isNan, Bool.false_eq_true, false_iff, not_and, hc]
    intro _ h0
    linarith
  · have h0 : p = 0 := by linarith
    simp [PFloat.isNan, hc, h0]
  · simp [PFloat.isNan, hc]

/-- With a nonzero divisor the IEEE quotient is the exact quotient. -/
lemma pdiv_of_ne (p c : ℚ) (hc : c ≠ 0) : pdiv p c = PFloat.num (p / c) := by
  unfold pdiv
  rw [if_neg hc]

/-- Positive numerator over zero gives `+inf`. -/
lemma pdiv_pos_zero (p c : ℚ) (hc : c = 0) (hp : 0 < p) : pdiv p c = PFloat.pinf := by
  unfold pdiv
  rw [if_pos hc, if_pos hp]

/-- Negative numerator over zero gives `-inf`. -/
lemma pdiv_neg_zero (p c : ℚ) (hc : c = 0) (hp : p < 0) : pdiv p c = PFloat.ninf := by
  unfold pdiv
  rw [if_pos hc, if_neg (by linarith), if_pos hp]

/-- Division by zero never produces a finite number. -/
lemma pdiv_zero_not_num (p c : ℚ) (hc : c = 0) : ∀ q : ℚ, pdiv p c ≠ PFloat.num q := by
  intro q
  unfold pdiv
  rw [if_pos hc]
  split_ifs <;> simp

/-- Full case analysis of IEEE division by cases on the divisor. -/
lemma pdiv_spec (p c : ℚ) :
    ((pdiv p c).isNan = true ↔ (c = 0 ∧ p = 0))
    ∧ (c ≠ 0 → pdiv p c = PFloat.num (p / c))
    ∧ (c = 0 → 0 < p → pdiv p c = PFloat.pinf)
    ∧ (c = 0 → p < 0 → pdiv p c = PFloat.ninf)
    ∧ (c = 0 → ∀ q : ℚ, pdiv p c ≠ PFloat.num q) :=
  ⟨pdiv_isNan p c, pdiv_of_ne p c, pdiv_pos_zero p c, pdiv_neg_zero p c,
   pdiv_zero_not_num p c⟩

/-! ### C1: the Self-Sufficiency Ratio and zero consumption -/

/-- Counterexample to C1: for a row with production 1 and consumption 0
the ratio column holds `+inf`, which is not the NA/undefined sentinel
(`pandas.isna` is false on it), so "undefined exactly when
`consumption == 0`" fails. -/
theorem ssr_undefined_cex :
    agP1C0.consumption = 0 ∧ (derive agP1C0).ssr = PFloat.pinf ∧
    ¬ ((derive agP1C0).ssr.isNan = true ↔ agP1C0.consumption = 0) := by
  with_unfolding_all decide

/-- C1 (amended): the Self-Sufficiency Ratio is the undefined (NaN)
sentinel exactly when consumption and production are both zero; for
nonzero consumption it equals production / consumption; for zero
consumption and nonzero production it is `+inf` or `-inf` by the sign of
production; with zero consumption it is never a finite number (in
particular never silently zero), and no error is raised (the deriver is a
total function). -/
theorem ssr_spec (r : AggRow) :
    ((derive r).ssr.isNan = true ↔ (r.consumption = 0 ∧ r.production = 0))
    ∧ (r.consumption ≠ 0 → (derive r).ssr = PFloat.num (r.production / r.consumption))
    ∧ (r.consumption = 0 → 0 < r.production → (derive r).ssr = PFloat.pinf)
    ∧ (r.consumption = 0 → r.production < 0 → (derive r).ssr = PFloat.ninf)
    ∧ (r.consumption = 0 → ∀ q : ℚ, (derive r).ssr ≠ PFloat.num q) :=
  pdiv_spec r.production r.consumption

/-- Witness for C1: the amended theorem evaluated on a 2/4 row and on the
1/0 row. -/
theorem ssr_spec_witness :
    (derive agP2C4).ssr = PFloat.num (agP2C4.production / agP2C4.consumption)
    ∧ (derive agP1C0).ssr = PFloat.pinf :=
  ⟨(ssr_spec agP2C4).2.1 (by decide),
   (ssr_spec agP1C0).2.2.1 (by decide) (by decide)⟩

/-! ### C2: competition ranking within a year -/

set_option maxRecDepth 10000 in
/-- Counterexample to C2: in a table holding a `0/0` row, the
Self-Sufficiency Ratio rank of that row is null, not one plus the number
of strictly greater rows of its year, so "assigns to each row of year Y a
rank" fails for missing-valued rows. -/
theorem rank_formula_cex :
    derive agNan ∈ nanTable ∧
    rankIn nanTable Metric.ssr (derive agNan) = none ∧
    rankIn nanTable Metric.ssr (derive agNan) ≠
      some (greaterCount nanTable Metric.ssr (derive agNan) + 1) := by
  with_unfolding_all decide

/-- C2 (amended): for every row whose metric value is present (non-NaN),
the world rank is one plus the number of rows of the same year with a
strictly greater value (competition ranking, descending; NaN-valued rows
never count as greater); the rank is unchanged when the table is
restricted to the row's year (per-year independence, with the metric a
fixed parameter throughout); and any row of the same year with the same
value receives the same rank (ties share the lowest rank). -/
theorem rank_competition (t : List CRow) (m : Metric) (r : CRow)
    (h : (mval m r).isNan = false) :
    rankIn t m r = some (greaterCount t m r + 1)
    ∧ rankIn (t.filter (fun s => s.year = r.year)) m r = rankIn t m r
    ∧ (∀ s : CRow, s.year = r.year → mval m s = mval m r →
        rankIn t m s = rankIn t m r) := by
  refine ⟨rankIn_eq_count t m r h, ?_, ?_⟩
  · have hf : (t.filter (fun s => s.year = r.year)).filter (fun s => s.year = r.year)
        = t.filter (fun s => s.year = r.year) := by
      rw [List.filter_filter]
      exact List.filter_congr (fun s _ => by
        cases hd : decide (s.year = r.year) <;> simp [hd])
    simp only [rankIn, rankedVals, yearVals, hf]
  · intro s hy hv
    simp only [rankIn, rankedVals, yearVals, hv, hy]

/-- Witness for C2: on the four-row fixture with a tie at 40, row "B"
ranks 2 = 1 + 1, and the tied row "B2" receives the same rank. -/
theorem rank_competition_witness :
    rankIn rankTable Metric.production (mkC "B" "Asia" 2020 40) =
      some (greaterCount rankTable Metric.production (mkC "B" "Asia" 2020 40) + 1)
    ∧ greaterCount rankTable Metric.production (mkC "B" "Asia" 2020 40) = 1
    ∧ rankIn rankTable Metric.production (mkC "B2" "Asia" 2020 40) =
        rankIn rankTable Metric.production (mkC "B" "Asia" 2020 40) :=
  ⟨(rank_competition rankTable Metric.production (mkC "B" "Asia" 2020 40) (by decide)).1,
   by decide,
   (rank_competition rankTable Metric.production (mkC "B" "Asia" 2020 40)
      (by decide)).2.2 (mkC "B2" "Asia" 2020 40) (by decide) (by decide)⟩

/-! ### C10: missing metric values in the world-rank export -/

/-- C10: in the world-rank export a row whose metric value is missing
(NaN, e.g. a `0/0` Self-Sufficiency Ratio) receives a null rank rather
than a number; appending missing-valued rows to the table leaves every
rank unchanged (missing rows are not counted); the greater-count only
counts rows with present values; and the export is exactly the per-row,
per-metric application of `rankIn`. -/
theorem rank_missing_null (t : List CRow) (m : Metric) (r : CRow) :
    ((mval m r).isNan = true → rankIn t m r = none)
    ∧ (∀ extra : List CRow,
        (∀ x ∈ extra, x.year = r.year → (mval m x).isNan = true) →
        rankIn (t ++ extra) m r = rankIn t m r)
    ∧ greaterCount t m r =
        (t.filter (fun s => s.year = r.year ∧ (mval m s).isNan = false ∧
          pltB (mval m r) (mval m s) = true)).length
    ∧ world_rank_data t =
        t.map (fun s => (s.area, s.year, allMetrics.map (fun m2 => rankIn t m2 s))) := by
  refine ⟨fun h => by simp [rankIn, h], ?_, ?_, rfl⟩
  · intro extra hextra
    have hyv : yearVals (t ++ extra) m r.year = yearVals t m r.year := by
      unfold yearVals
      rw [List.filter_append, List.map_append, List.filter_append]
      have hnil : ((extra.filter (fun s => s.year = r.year)).map
          (mval m)).filter (fun v => v.isNan = false) = [] := by
        refine List.filter_eq_nil_iff.mpr (fun v hv => ?_)
        rcases List.mem_map.mp hv with ⟨x, hx, rfl⟩
        rcases List.mem_filter.mp hx with ⟨hx1, hx2⟩
        have := hextra x hx1 (by simpa using hx2)
        simp [this]
      rw [hnil, List.append_nil]
    simp only [rankIn, rankedVals, hyv]
  · refine congrArg List.length (List.filter_congr (fun s _ => ?_)).symm
    rw [decide_eq_decide]
    constructor
    · rintro ⟨hy, _, hp⟩
      exact ⟨hy, hp⟩
    · rintro ⟨hy, hp⟩
      exact ⟨hy, pltB_ne_nan hp, hp⟩

/-- Witness for C10: the `0/0` row of the fixture gets a null
Self-Sufficiency-Ratio rank, and appending that row to a one-row table
leaves the ordinary row's rank unchanged. -/
theorem rank_missing_null_witness :
    rankIn nanTable Metric.ssr (derive agNan) = none
    ∧ rankIn (deriveAll [agOrd] ++ [derive agNan]) Metric.ssr (derive agOrd) =
        rankIn (deriveAll [agOrd]) Metric.ssr (derive agOrd) :=
  ⟨(rank_missing_null nanTable Metric.ssr (derive agNan)).1
     (by with_unfolding_all decide),
   (rank_missing_null (deriveAll [agOrd]) Metric.ssr (derive agOrd)).2.1
     [derive agNan]
     (by
       intro x hx _
       rcases List.mem_singleton.mp hx with rfl
       with_unfolding_all decide)⟩

/-! ### C5: grouping and summing duplicates -/

/-- C5: the Aggregator groups records by (area, continent, identifier,
year): after aggregation the keys are pairwise distinct; every output
row's four metrics are the sums of those metrics over the admitted input
rows sharing its key; and every admitted input row's key is represented in
the output. -/
theorem agg_unique_and_sums (rows : List JRow) :
    ((aggregate rows).map rowKey).Nodup
    ∧ (∀ o ∈ aggregate rows,
        o.imports = (((keyRows rows).filter (fun x => rowKey x = rowKey o)).map
          (fun x => x.imports)).sum
        ∧ o.exports = (((keyRows rows).filter (fun x => rowKey x = rowKey o)).map
          (fun x => x.exports)).sum
        ∧ o.production = (((keyRows rows).filter (fun x => rowKey x = rowKey o)).map
          (fun x => x.production)).sum
        ∧ o.consumption = (((keyRows rows).filter (fun x => rowKey x = rowKey o)).map
          (fun x => x.consumption)).sum)
    ∧ (∀ x ∈ keyRows rows, rowKey x ∈ (aggregate rows).map rowKey) := by
  refine ⟨nodup_keys_groupAgg (keyRows rows), ?_, ?_⟩
  · intro o ho
    unfold aggregate groupAgg at ho
    rcases List.mem_map.mp ho with ⟨k, _, rfl⟩
    exact ⟨rfl, rfl, rfl, rfl⟩
  · intro x hx
    unfold aggregate
    rw [map_rowKey_groupAgg]
    exact List.mem_dedup.mpr (List.mem_map_of_mem rowKey hx)

set_option maxRecDepth 10000 in
/-- Witness for C5: the spec's scenario — two rows for Testland, year
2000, imports 10 and 5, aggregate to the single row with imports 15, and
the theorem's sum formula evaluates on that row. -/
theorem agg_unique_and_sums_witness :
    aggregate [jT1, jT2] = [aggT]
    ∧ aggT.imports = (((keyRows [jT1, jT2]).filter
        (fun x => rowKey x = rowKey aggT)).map (fun x => x.imports)).sum :=
  ⟨by with_unfolding_all decide,
   ((agg_unique_and_sums [jT1, jT2]).2.1 aggT (by with_unfolding_all decide)).1⟩

/-! ### C9: idempotence of the aggregation -/

/-- C9: applying the group-by-(area, continent, identifier, year)-and-sum
aggregation a second time to its own output (whose identifiers are all
present) yields the same table; nothing collapses further. -/
theorem agg_idempotent (rows : List JRow) :
    aggregate ((aggregate rows).map asJRow) = aggregate rows := by
  unfold aggregate
  rw [keyRows_asJRow]
  exact groupAgg_idem (keyRows rows)

/-! ### C3: scoped top-5 with market shares -/

/-- C3: for any metric, year and scope with at least five rows, the top-5
query returns exactly five rows of the scope in descending metric order,
such that no row left behind exceeds a selected row; the scope total is
the metric summed over all scope rows (not just the selected five); and
the summary table pairs each selected row's area with
`value / scopeTotal * 100`. -/
theorem top5_market_share (t : List CRow) (m : BaseMetric) (y : ℤ) (scope : String)
    (h5 : 5 ≤ (scopeRows t y scope).length) :
    (top5 t m y scope).length = 5
    ∧ List.Sorted (rowGe m) (top5 t m y scope)
    ∧ (scopeRows t y scope).Perm
        (top5 t m y scope ++ (sortedScope t m y scope).drop 5)
    ∧ (∀ a ∈ top5 t m y scope, ∀ b ∈ (sortedScope t m y scope).drop 5,
        bval m b ≤ bval m a)
    ∧ market_total t m y scope = ((scopeRows t y scope).map (bval m)).sum
    ∧ top5_query t m y scope = .ok ((top5 t m y scope).map (fun r =>
        (r.area, marketShare (bval m r) (market_total t m y scope)))) := by
  have hsorted : List.Sorted (rowGe m) (sortedScope t m y scope) :=
    List.sorted_insertionSort (rowGe m) (scopeRows t y scope)
  have hperm : (sortedScope t m y scope).Perm (scopeRows t y scope) :=
    List.perm_insertionSort (rowGe m) (scopeRows t y scope)
  have hlen : (sortedScope t m y scope).length = (scopeRows t y scope).length :=
    hperm.length_eq
  have hl5 : (top5 t m y scope).length = 5 := by
    unfold top5
    rw [List.length_take, hlen]
    exact min_eq_left h5
  have hsplit : top5 t m y scope ++ (sortedScope t m y scope).drop 5 =
      sortedScope t m y scope := List.take_append_drop 5 _
  have hcross : ∀ a ∈ top5 t m y scope, ∀ b ∈ (sortedScope t m y scope).drop 5,
      rowGe m a b := by
    have hp : List.Pairwise (rowGe m)
        (top5 t m y scope ++ (sortedScope t m y scope).drop 5) := by
      rw [hsplit]
      exact hsorted
    exact (List.pairwise_append.mp hp).2.2
  refine ⟨hl5, List.Pairwise.sublist (List.take_sublist 5 _) hsorted, ?_, hcross, rfl, ?_⟩
  · rw [hsplit]
    exact hperm.symm
  · obtain ⟨a, b, c, d, e, rest, hr⟩ :
        ∃ a b c d e rest, top5 t m y scope = a :: b :: c :: d :: e :: rest := by
      rcases h0 : top5 t m y scope with _ | ⟨a, _ | ⟨b, _ | ⟨c, _ | ⟨d, _ | ⟨e, rest⟩⟩⟩⟩⟩ <;>
        rw [h0] at hl5 <;> simp at hl5
      exact ⟨a, b, c, d, e, rest, rfl⟩
    have hrest : rest = [] := by
      rw [hr] at hl5
      simp at hl5
      exact hl5
    subst hrest
    unfold top5_query
    rw [hr]

/-- Witness for C3: the spec's scenario — Asian rows of 2020 with
productions 50, 40, 30, 20, 10 (plus four smaller rows bringing the scope
total to 180): the five are selected in order, and the first market share
is 50/180*100 = 250/9 ≈ 27.78%. -/
theorem top5_market_share_witness :
    (top5 topTable BaseMetric.production 2020 "Asia").length = 5
    ∧ (top5 topTable BaseMetric.production 2020 "Asia").map
        (fun r => bval BaseMetric.production r) = [50, 40, 30, 20, 10]
    ∧ market_total topTable BaseMetric.production 2020 "Asia" = 180
    ∧ top5_query topTable BaseMetric.production 2020 "Asia" =
        .ok [("A", PFloat.num (250/9)), ("B", PFloat.num (200/9)),
             ("C", PFloat.num (50/3)), ("D", PFloat.num (100/9)),
             ("E", PFloat.num (50/9))] :=
  ⟨(top5_market_share topTable BaseMetric.production 2020 "Asia" (by decide)).1,
   by with_unfolding_all decide,
   by with_unfolding_all decide,
   by with_unfolding_all decide⟩

/-! ### C4: scopes with fewer than five rows -/

/-- C4: when the scope holds fewer than five rows for the year, the
selection returns exactly the scope's rows (never fabricated entries: it
is as long as the scope and drawn from it), and the summary-table query
fails with the positional-indexer error instead of producing five rows. -/
theorem top5_insufficient (t : List CRow) (m : BaseMetric) (y : ℤ) (scope : String)
    (h : (scopeRows t y scope).length < 5) :
    (top5 t m y scope).length = (scopeRows t y scope).length
    ∧ (∀ r ∈ top5 t m y scope, r ∈ scopeRows t y scope)
    ∧ top5_query t m y scope = .error "single positional indexer is out-of-bounds" := by
  have hperm : (sortedScope t m y scope).Perm (scopeRows t y scope) :=
    List.perm_insertionSort (rowGe m) (scopeRows t y scope)
  have hlen : (sortedScope t m y scope).length = (scopeRows t y scope).length :=
    hperm.length_eq
  have htake : top5 t m y scope = sortedScope t m y scope := by
    unfold top5
    exact List.take_of_length_le (by omega)
  have hl : (top5 t m y scope).length < 5 := by
    rw [htake, hlen]
    exact h
  refine ⟨by rw [htake, hlen], ?_, ?_⟩
  · intro r hr
    exact hperm.mem_iff.mp (htake ▸ hr)
  · unfold top5_query
    rcases h0 : top5 t m y scope with _ | ⟨a, _ | ⟨b, _ | ⟨c, _ | ⟨d, _ | ⟨e, rest⟩⟩⟩⟩⟩ <;>
      first
        | rfl
        | (rw [h0] at hl; simp only [List.length_cons] at hl; omega)

/-- Witness for C4: a scope/year combination with only three matching
rows: the selection has length three and the summary-table query raises
the indexing error. -/
theorem top5_insufficient_witness :
    (top5 smallTable BaseMetric.imports 2021 "the Whole World").length =
      (scopeRows smallTable 2021 "the Whole World").length
    ∧ (scopeRows smallTable 2021 "the Whole World").length = 3
    ∧ top5_query smallTable BaseMetric.imports 2021 "the Whole World" =
        .error "single positional indexer is out-of-bounds" :=
  ⟨(top5_insufficient smallTable BaseMetric.imports 2021 "the Whole World" (by decide)).1,
   by decide,
   (top5_insufficient smallTable BaseMetric.imports 2021 "the Whole World" (by decide)).2.2⟩

/-- Each of the five continent names is neither empty nor the classifier's
miss sentinel. -/
lemma fiveContinents_ne {s : String} (h : s ∈ fiveContinents) :
    s ≠ "" ∧ s ≠ "not found" := by
  simp only [fiveContinents, List.mem_cons, List.not_mem_nil, or_false] at h
  rcases h with rfl | rfl | rfl | rfl | rfl <;> exact ⟨by decide, by decide⟩

/-- Continent provenance through the aggregation: every aggregated row
takes its continent (and identifier) from some admitted input row. -/
lemma continent_of_aggregate {rows : List JRow} {o : AggRow}
    (ho : o ∈ aggregate rows) :
    ∃ j ∈ rows, o.continent = j.continent ∧ j.iso3 = some o.iso3 := by
  unfold aggregate groupAgg at ho
  rcases List.mem_map.mp ho with ⟨k, hk, rfl⟩
  rcases List.mem_map.mp (List.mem_dedup.mp hk) with ⟨x, hx, hkx⟩
  unfold keyRows at hx
  rcases List.mem_filterMap.mp hx with ⟨j, hj, hjx⟩
  rcases hop : j.iso3 with _ | c
  · rw [hop] at hjx
    cases hjx
  · rw [hop] at hjx
    cases hjx
    refine ⟨j, hj, ?_, ?_⟩
    · rw [← hkx]
      rfl
    · rw [← hkx, hop]
      rfl

/-- Every row surviving the classification filter carries the classifier's
continent for its own M49 code, and that continent is not "not found". -/
lemma continent_of_classifyFilter {classify : ℤ → String} {ms : List MergedRow}
    {j : JRow} (hj : j ∈ classifyFilter classify ms) :
    ∃ mr ∈ ms, j.continent = classify mr.m49 ∧ classify mr.m49 ≠ "not found" := by
  unfold classifyFilter at hj
  rcases List.mem_map.mp hj with ⟨mr, hmr, rfl⟩
  rcases List.mem_filter.mp hmr with ⟨hmem, hcond⟩
  exact ⟨mr, hmem, rfl, by simpa using hcond⟩

/-! ### C6: every canonical row has a recognised continent -/

/-- C6: provided the external classifier only ever answers one of the five
recognised continent names or "not found" (its spec contract), every row
of the canonical table built by the pipeline has a continent among the
five fixed values — unresolved records were dropped entirely, so no row
has an empty or sentinel continent. -/
theorem continent_in_five (classify : ℤ → String)
    (hcl : ∀ c : ℤ, classify c ∈ fiveContinents ∨ classify c = "not found")
    (trade : List RawRow) (refRaw : List RefRawRow) (table : List CRow)
    (hb : buildTable classify trade refRaw = .ok table) :
    ∀ r ∈ table, r.continent ∈ fiveContinents
      ∧ r.continent ≠ "" ∧ r.continent ≠ "not found" := by
  unfold buildTable at hb
  rcases hct : cleanTrade trade with e | cleanRows
  · rw [hct] at hb
    simp at hb
  rcases hcr : cleanRef refRaw with e | ref
  · rw [hct, hcr] at hb
    simp at hb
  rw [hct, hcr] at hb
  simp only [Except.ok.injEq] at hb
  subst hb
  intro r hr
  unfold deriveAll at hr
  rcases List.mem_map.mp hr with ⟨o, ho, rfl⟩
  rcases continent_of_aggregate ho with ⟨j, hj, hoc, _⟩
  rcases continent_of_classifyFilter hj with ⟨mr, _, hjc, hne⟩
  have hcont : (derive o).continent = classify mr.m49 := by
    show o.continent = classify mr.m49
    rw [hoc, hjc]
  rcases hcl mr.m49 with hin | hnf
  · rw [hcont]
    exact ⟨hin, fiveContinents_ne hin⟩
  · exact absurd hnf hne

set_option maxRecDepth 10000 in
/-- Witness for C6: the one-row pipeline run under the classifier that
resolves only code 4, applied through the theorem. -/
theorem continent_in_five_witness :
    cRowW.continent ∈ fiveContinents
      ∧ cRowW.continent ≠ "" ∧ cRowW.continent ≠ "not found" :=
  continent_in_five clOnly4
    (fun c => by
      unfold clOnly4
      by_cases h : c = 4
      · rw [if_pos h]
        exact Or.inl (by decide)
      · rw [if_neg h]
        exact Or.inr rfl)
    [rawT] [refRawT] [cRowW]
    (by with_unfolding_all decide)
    cRowW (List.mem_singleton.mpr rfl)

/-! ### C7: join retention and the fate of unmatched rows -/

set_option maxRecDepth 10000 in
/-- Counterexample to C7: with an empty reference table and a classifier
that resolves every code, the single trade record misses the join
(identifier NA) yet survives the Classifier's continent filter — so
unmatched rows are not "filtered out downstream by the Classifier".  (It
still vanishes from the canonical table: the Aggregator drops it.) -/
theorem join_miss_cex :
    (leftJoin [cMiss] []).map (fun r => r.iso3) = [none]
    ∧ (classifyFilter clAll (leftJoin [cMiss] [])).map (fun j => j.iso3) = [none]
    ∧ classifyFilter clAll (leftJoin [cMiss] []) ≠ []
    ∧ aggregate (classifyFilter clAll (leftJoin [cMiss] [])) = [] := by
  with_unfolding_all decide

/-- C7 (amended): the left join retains every trade record; each joined
row's identifier is exactly the reference lookup of its code, in
particular NA when no reference entry matches.  Unmatched rows are not
necessarily removed by the Classifier (see the counterexample); instead
rows with an NA identifier contribute nothing to the aggregation — the
group-by drops NA keys — so no unmatched row reaches the canonical
table. -/
theorem join_retention (rows : List CleanRow) (ref : List RefRow) :
    (leftJoin rows ref).length = rows.length
    ∧ (∀ j ∈ leftJoin rows ref, j.iso3 = lookupRef ref j.m49)
    ∧ (∀ j ∈ leftJoin rows ref, (∀ e ∈ ref, e.numericCode ≠ j.m49) → j.iso3 = none)
    ∧ (∀ js extra : List JRow, (∀ x ∈ extra, x.iso3 = none) →
        aggregate (js ++ extra) = aggregate js) := by
  have hlook : ∀ j ∈ leftJoin rows ref, j.iso3 = lookupRef ref j.m49 := by
    intro j hj
    unfold leftJoin at hj
    rcases List.mem_map.mp hj with ⟨r, _, rfl⟩
    rfl
  refine ⟨List.length_map rows _, hlook, ?_, ?_⟩
  · intro j hj hmiss
    rw [hlook j hj]
    unfold lookupRef
    rw [List.find?_eq_none.mpr (fun e he => by simpa using hmiss e he)]
    rfl
  · intro js extra hex
    have happ : keyRows (js ++ extra) = keyRows js ++ keyRows extra := by
      unfold keyRows
      exact List.filterMap_append js extra _
    have hnil : keyRows extra = [] := by
      unfold keyRows
      refine List.filterMap_eq_nil_iff.mpr (fun x hx => ?_)
      rw [hex x hx]
      rfl
    unfold aggregate
    rw [happ, hnil, List.append_nil]

set_option maxRecDepth 10000 in
/-- Witness for C7: the join of the unmatched row keeps it with an NA
identifier, and appending an NA-identifier row to an aggregation input
leaves the aggregated table unchanged. -/
theorem join_retention_witness :
    (leftJoin [cMiss] [refW]).length = [cMiss].length
    ∧ mJ.iso3 = none
    ∧ aggregate ([jT1] ++ [jNone]) = aggregate [jT1] :=
  ⟨(join_retention [cMiss] [refW]).1,
   (join_retention [cMiss] [refW]).2.2.1 mJ (by with_unfolding_all decide)
     (fun e he => by
       rcases List.mem_singleton.mp he with rfl
       decide),
   (join_retention [cMiss] [refW]).2.2.2 [jT1] [jNone]
     (fun x hx => by
       rcases List.mem_singleton.mp hx with rfl
       rfl)⟩

/-! ### C8: uncoercible numeric codes -/

/-- Counterexample to C8: the cell "12a" survives quote/whitespace
stripping unchanged, cannot be coerced, and makes the whole cleaning step
fail with an error — it does not become a missing value, and the row is
not silently excluded. -/
theorem clean_uncoercible_cex :
    cleanCell rawBad.m49raw = "12a"
    ∧ String.toInt? "12a" = none
    ∧ cleanTrade [rawBad] = .error "invalid literal for int with base 10: 12a" := by
  with_unfolding_all decide

/-- C8 (amended): the Cleaner strips stray quoting and whitespace and
coerces the column to integers; when every cleaned cell parses, the
conversion succeeds with exactly the parsed codes, but a single
uncoercible value makes the conversion — and hence the pipeline build —
fail with a raised error.  There is no per-row "missing" fallback. -/
theorem clean_coercion (cells : List String) :
    ((∀ c ∈ cells, (String.toInt? c).isSome = true) →
      toInt64Column cells = .ok (cells.filterMap String.toInt?))
    ∧ ((∃ c ∈ cells, String.toInt? c = none) →
      ∃ e, toInt64Column cells = .error e) := by
  induction cells with
  | nil =>
    exact ⟨fun _ => rfl, fun ⟨c, hc, _⟩ => absurd hc (List.not_mem_nil c)⟩
  | cons c cs ih =>
    constructor
    · intro hall
      have hc := hall c (List.mem_cons_self c cs)
      rcases ho : String.toInt? c with _ | n
      · rw [ho] at hc
        cases hc
      · have hcs := ih.1 (fun x hx => hall x (List.mem_cons_of_mem c hx))
        unfold toInt64Column
        rw [ho, hcs]
        simp [List.filterMap_cons, ho]
    · rintro ⟨x, hx, hxn⟩
      rcases List.mem_cons.mp hx with rfl | hx'
      · unfold toInt64Column
        rw [hxn]
        exact ⟨_, rfl⟩
      · rcases ho : String.toInt? c with _ | n
        · unfold toInt64Column
          rw [ho]
          exact ⟨_, rfl⟩
        · rcases ih.2 ⟨x, hx', hxn⟩ with ⟨e, he⟩
          unfold toInt64Column
          rw [ho, he]
          exact ⟨e, rfl⟩

/-- Witness for C8: a fully coercible column converts to the parsed codes,
and a column holding "x" fails with an error. -/
theorem clean_coercion_witness :
    toInt64Column [cleanCell "\"004\" ", "12"] =
      .ok ([cleanCell "\"004\" ", "12"].filterMap String.toInt?)
    ∧ ∃ e, toInt64Column ["x"] = .error e :=
  ⟨(clean_coercion [cleanCell "\"004\" ", "12"]).1 (by with_unfolding_all decide),
   (clean_coercion ["x"]).2 ⟨"x", by decide, by with_unfolding_all decide⟩⟩

end SpiceDash
